import Mathlib

set_option maxRecDepth 10000

/-!
A shallow embedding of the two source files of `pydantic-exportables2`:
`src/src/pydantic_exportables/jsonexportable.py` (the record contract and the
keyed collection `JSONExportableRootDict`) and `src/src/pyutils/exportable.py`
(the streaming export pipeline), together with theorems settling the frozen
claims about them.

Modelling conventions:
* Python machine integers and `Idx` keys are modelled as `Int`.
* A pydantic model instance is a `Record`: its `__dict__` is an association
  list from field name to `Value`, its `__pydantic_fields_set__` is a list of
  field names, and the (derived) `index` property is an `Option Int` where
  `none` models a type that defines no index (`index` raising
  `NotImplementedError`).
* Raised Python exceptions are modelled with `Except PyErr`; a `try/except`
  block is modelled by matching on the `Except` value.
* File system state is an association list from file name to the list of
  written lines; standard output is the pseudo-file `"-"`.
-/

/-- Kinds of Python exceptions raised by the embedded code. -/
inductive PyErr : Type where
  | notImplemented
  | attrError
  | keyError
  | fileExists
  | valueError
  deriving DecidableEq, Repr

mutual
/-- A field value of a pydantic model: either an opaque scalar (`atom`) or a
nested `JSONExportable` model (`sub`), mirroring the
`isinstance(value, JSONExportable)` checks in `JSONExportable.update`. -/
inductive Value : Type where
  | atom : Int → Value
  | sub : Record → Value

/-- A `JSONExportable` instance: the field table (`__dict__`, an ordered
mapping from field name to value), the set of explicitly-set fields
(`__pydantic_fields_set__`), and the derived `index` identity, `none` when the
type defines no index (the `index` property raises `NotImplementedError`). -/
inductive Record : Type where
  | mk : List (String × Value) → List String → Option Int → Record
end

/-- Field table (`__dict__`) of a record. -/
def Record.fields : Record → List (String × Value)
  | .mk f _ _ => f

/-- Explicitly-set field names (`model_fields_set`) of a record. -/
def Record.fieldsSet : Record → List String
  | .mk _ s _ => s

/-- The `index` property: `none` models `NotImplementedError`. -/
def Record.index : Record → Option Int
  | .mk _ _ i => i

/-- Association-list lookup, modelling Python `dict`/attribute access. -/
def alookup {α β : Type} [DecidableEq α] : List (α × β) → α → Option β
  | [], _ => none
  | (a, b) :: rest, k => if a = k then some b else alookup rest k

/-- Association-list store, modelling Python `dict` assignment: an existing
key is overwritten in place, a new key is appended (insertion order). -/
def aset {α β : Type} [DecidableEq α] : List (α × β) → α → β → List (α × β)
  | [], k, v => [(k, v)]
  | (a, b) :: rest, k, v =>
    if a = k then (k, v) :: rest else (a, b) :: aset rest k v

/-- Add a name to a Python `set` of field names
(`self.__pydantic_fields_set__.add(name)`). -/
def addKey (s : List String) (k : String) : List String :=
  if k ∈ s then s else s ++ [k]

/-- Size-bounded lookup into a field table. It computes exactly
`alookup fs k` (see `lookupFS_eq_alookup`); the attached size bound licenses
the recursion of `Record.update` into nested records. -/
def lookupFS : (fs : List (String × Value)) → String →
    Option {v : Value // sizeOf v < sizeOf fs}
  | [], _ => none
  | (k2, v2) :: rest, k =>
    if k2 = k then
      some ⟨v2, by simp; omega⟩
    else
      match lookupFS rest k with
      | none => none
      | some ⟨v, h⟩ => some ⟨v, by simp; omega⟩

mutual
/-- `JSONExportable.update` (jsonexportable.py lines 340-362), the per-record
merge. With `matchIndex` set, `self.index != new.index` is evaluated first:
an undefined index raises `NotImplementedError`, a differing index refuses
the merge with `(False, self)`. Otherwise each field in
`new.model_fields_set` is processed in order by `Record.updateLoop`. -/
def Record.update (self new : Record) (matchIndex : Bool) :
    Except PyErr (Bool × Record) :=
  if matchIndex then
    match self.index, new.index with
    | some i, some j =>
      if i ≠ j then Except.ok (false, self)
      else Record.updateLoop self new.fields new.fieldsSet matchIndex false
    | _, _ => Except.error PyErr.notImplemented
  else Record.updateLoop self new.fields new.fieldsSet matchIndex false
  termination_by (sizeOf new, 0)
  decreasing_by
  all_goals
    (apply Prod.Lex.left
     cases new with
     | mk f s i =>
       simp [Record.fields]
       omega)

/-- The `for key in new.model_fields_set` loop body of `JSONExportable.update`:
a nested record on both sides is merged recursively (and `continue` skips the
fields-set update), any other set field is overwritten via
`_set_skip_validation` (which also marks the field as set) and records a
change. `getattr` on a name missing from the field table raises
`AttributeError` (unreachable for well-formed pydantic instances). -/
def Record.updateLoop (self : Record) (newFields : List (String × Value))
    (keys : List String) (matchIndex : Bool) (updated : Bool) :
    Except PyErr (Bool × Record) :=
  match keys with
  | [] => Except.ok (updated, self)
  | key :: rest =>
    match lookupFS newFields key with
    | none => Except.error PyErr.attrError
    | some ⟨Value.atom a, _⟩ =>
      Record.updateLoop
        (Record.mk (aset self.fields key (Value.atom a))
          (addKey self.fieldsSet key) self.index)
        newFields rest matchIndex true
    | some ⟨Value.sub vr, hv⟩ =>
      match alookup self.fields key with
      | none => Except.error PyErr.attrError
      | some (Value.atom _) =>
        Record.updateLoop
          (Record.mk (aset self.fields key (Value.sub vr))
            (addKey self.fieldsSet key) self.index)
          newFields rest matchIndex true
      | some (Value.sub oldr) =>
        match Record.update oldr vr matchIndex with
        | Except.error e => Except.error e
        | Except.ok (ch, oldr2) =>
          Record.updateLoop
            (Record.mk (aset self.fields key (Value.sub oldr2))
              self.fieldsSet self.index)
            newFields rest matchIndex (updated || ch)
  termination_by (sizeOf newFields, keys.length + 1)
  decreasing_by
  all_goals
    (first
      | (apply Prod.Lex.right
         simp only [List.length_cons]
         omega)
      | (apply Prod.Lex.left
         simp only [Value.sub.sizeOf_spec] at hv
         omega))
end

mutual
/-- Pydantic `__eq__` on field values (same-class instances compare their
`__dict__` contents; `__pydantic_fields_set__` and derived properties do not
participate in equality). -/
def valEq : Value → Value → Bool
  | Value.atom a, Value.atom b => a == b
  | Value.sub r, Value.sub s => recEq r s
  | _, _ => false

/-- Pydantic `__eq__` on records: compares the `__dict__` field tables. -/
def recEq : Record → Record → Bool
  | Record.mk f1 _ _, Record.mk f2 _ _ => fieldsEq f1 f2

/-- Pointwise equality of two same-class field tables (same field names in
declaration order, values compared with `valEq`). -/
def fieldsEq : List (String × Value) → List (String × Value) → Bool
  | [], [] => true
  | (k1, v1) :: r1, (k2, v2) :: r2 => k1 == k2 && valEq v1 v2 && fieldsEq r1 r2
  | _, _ => false
end

/-- The effect of one iteration of the `JSONExportable.update` loop on the
single field it processes, as a function of the two records' values at that
field: nested records on both sides are merged recursively (the pair carries
the nested change report), a missing receiver attribute raises, and any other
combination overwrites the receiver's value and reports a change. The claim
theorems relate `Record.update` to this per-field description. -/
def mergedField (selfVal : Option Value) (v : Value) (mi : Bool) :
    Except PyErr (Bool × Value) :=
  match v, selfVal with
  | Value.sub vr, some (Value.sub oldr) =>
    match Record.update oldr vr mi with
    | Except.ok (ch, r2) => Except.ok (ch, Value.sub r2)
    | Except.error e => Except.error e
  | Value.sub _, none => Except.error PyErr.attrError
  | Value.sub w, some (Value.atom _) => Except.ok (true, Value.sub w)
  | Value.atom a, _ => Except.ok (true, Value.atom a)

/-- `JSONExportable.__hash__` from jsonexportable.py lines 278-283:
`hash(self.index)` with the `NotImplementedError` caught, falling back to
`hash(id(self))`; `objId` stands for `id(self)` and CPython's `hash` on a
small int is the identity. -/
def hashJE (r : Record) (objId : Int) : Int :=
  match r.index with
  | some i => i
  | none => objId

/-- `JSONExportable.__hash__` from pyutils/exportable.py lines 151-153:
`hash(self.index)` with no handler, so an undefined index lets
`NotImplementedError` escape to the caller. -/
def hashPU (r : Record) : Except PyErr Int :=
  match r.index with
  | some i => Except.ok i
  | none => Except.error PyErr.notImplemented

/-- An arbitrary Python object as seen by `JSONExportable.transform`: a
run-time type tag plus an opaque payload. -/
structure PyObj where
  ty : String
  payload : Int
  deriving DecidableEq, Repr

/-- `JSONExportable.transform` (jsonexportable.py lines 120-131): if the
input's run-time type is exactly the target class it is returned as is;
otherwise the registered transformation for that run-time type is applied;
a missing registration (`KeyError`) or a raising conversion is caught by the
surrounding `except` and yields `None`. -/
def transform (cls : String) (table : List (String × (PyObj → Option PyObj)))
    (inObj : PyObj) : Option PyObj :=
  if inObj.ty = cls then some inObj
  else
    match alookup table inObj.ty with
    | some f => f inObj
    | none => none

/-- `JSONExportableRootDict` (jsonexportable.py lines 365-448): `root` models
the backing `Dict[IdxType, JSONExportableType]` as an insertion-ordered
association list, `sorted` models the `_sorted` class flag (default `True`). -/
structure RootDict where
  root : List (Int × Record)
  sorted : Bool

/-- Keys of the backing dict in storage (insertion) order. -/
def keysOf (root : List (Int × Record)) : List Int :=
  root.map Prod.fst

/-- Insert an element into an ascending list (helper for `sortKeys`). -/
def insSorted (x : Int) : List Int → List Int
  | [] => [x]
  | y :: ys => if x ≤ y then x :: y :: ys else y :: insSorted x ys

/-- Ascending sort of a key list, modelling Python `sorted(self.keys())`. -/
def sortKeys : List Int → List Int
  | [] => []
  | x :: xs => insSorted x (sortKeys xs)

/-- `JSONExportableRootDict.__iter__` (lines 405-409): ascending key order
when `_sorted` is set, backing-storage order otherwise. -/
def RootDict.iterKeys (d : RootDict) : List Int :=
  if d.sorted then sortKeys (keysOf d.root) else keysOf d.root

/-- List difference of key sets (`added = new_ids - old_ids`). -/
def diffL (a b : List Int) : List Int :=
  a.filter (fun k => k ∉ b)

/-- List intersection of key sets (`updated = new_ids & old_ids`). -/
def interL (a b : List Int) : List Int :=
  a.filter (fun k => k ∈ b)

/-- The `for key in updated` loop of `JSONExportableRootDict.update`
(lines 441-443): merges `new[key]` into `self[key]` and then adds the key to
`updated_idx` unconditionally — the Bool returned by the per-record merge is
discarded. A raising merge propagates; a missing key would be a `KeyError`
(unreachable, the processed keys lie in both key sets). The iteration order
of the Python set is unspecified; the keys are processed here in the order of
the given list. -/
def RootDict.updApply (root : List (Int × Record)) (new : RootDict)
    (ks : List Int) (matchIndex : Bool) (acc : List Int) :
    Except PyErr (List (Int × Record) × List Int) :=
  match ks with
  | [] => Except.ok (root, acc)
  | k :: rest =>
    match alookup root k, alookup new.root k with
    | some oldr, some newr =>
      match Record.update oldr newr matchIndex with
      | Except.error e => Except.error e
      | Except.ok (_ch, oldr2) =>
        RootDict.updApply (aset root k oldr2) new rest matchIndex (acc ++ [k])
    | _, _ => Except.error PyErr.keyError

/-- The `for key in added` loop of `JSONExportableRootDict.update`
(lines 445-446): inserts each added record wholesale. -/
def RootDict.addAll (root : List (Int × Record)) (new : RootDict)
    (ks : List Int) : Except PyErr (List (Int × Record)) :=
  match ks with
  | [] => Except.ok root
  | k :: rest =>
    match alookup new.root k with
    | some r => RootDict.addAll (aset root k r) new rest
    | none => Except.error PyErr.keyError

/-- `JSONExportableRootDict.update` (jsonexportable.py lines 427-448):
computes `added = keys(new) - keys(self)` and the candidate set
`keys(new) & keys(self)` filtered by whole-value inequality
(`new[key] != self[key]`, pydantic `__eq__`), merges each candidate in place
and collects every candidate key into `updated_idx` regardless of the
merge's reported change, then inserts the added records. -/
def RootDict.update (self new : RootDict) (matchIndex : Bool) :
    Except PyErr (List Int × List Int × RootDict) :=
  let newIds := keysOf new.root
  let oldIds := keysOf self.root
  let added := diffL newIds oldIds
  let cand := interL newIds oldIds
  let upd := cand.filter (fun k =>
    match alookup new.root k, alookup self.root k with
    | some a, some b => !recEq a b
    | _, _ => false)
  match RootDict.updApply self.root new upd matchIndex [] with
  | Except.error e => Except.error e
  | Except.ok (root2, updatedIdx) =>
    match RootDict.addAll root2 new added with
    | Except.error e => Except.error e
    | Except.ok root3 =>
      Except.ok (added, updatedIdx, { self with root := root3 })

/-- One `"key": value` entry of the hand-concatenated collection JSON. -/
def entryStr (k : Int) (s : String) : String :=
  "\"" ++ toString k ++ "\": " ++ s

/-- `JSONExportableRootDict.json_src` (jsonexportable.py lines 460-471):
hand-concatenates each member's own JSON text keyed by stringified identity,
iterating `self.items()` — the backing dict's storage order. The member
serializer `JSONExportable.json_src` delegates to pydantic
`model_dump_json` and is abstracted as the `render` parameter. -/
def RootDict.jsonSrc (d : RootDict) (render : Record → String) : String :=
  "\x7b" ++
    String.intercalate ",\n"
      (d.root.map (fun kv => entryStr kv.1 (render kv.2))) ++
    "\x7d"

/-- The same concatenation built by looking the members up in a given key
order; used to compare the emitted entry order against an iteration order. -/
def RootDict.jsonInOrder (d : RootDict) (render : Record → String)
    (ks : List Int) : String :=
  "\x7b" ++
    String.intercalate ",\n"
      (ks.filterMap (fun k =>
        (alookup d.root k).map (fun r => entryStr k (render r)))) ++
    "\x7d"

/-- Character-list prefix test (helper for the suffix tests below). -/
def isPrefixL : List Char → List Char → Bool
  | [], _ => true
  | _ :: _, [] => false
  | a :: as, b :: bs => a == b && isPrefixL as bs

/-- Python `str.endswith`, case sensitive, on Unicode code points. -/
def strEndsWith (s suffix : String) : Bool :=
  isPrefixL suffix.data.reverse s.data.reverse

/-- Python `str.lower` (sufficiently modelled by per-character lowering). -/
def lowerStr (s : String) : String :=
  String.mk (s.data.map Char.toLower)

/-- The filename adjustment done by each renderer before opening a file:
`if not filename.lower().endswith(sfx): filename = f"{filename}.{sfx}"`. -/
def adjustName (filename sfx : String) : String :=
  if strEndsWith (lowerStr filename) sfx then filename
  else filename ++ "." ++ sfx

/-- The file-system state seen by one export call: named files with their
written lines; the pseudo-file `"-"` collects standard-output lines. -/
structure Fs where
  files : List (String × List String)
  deriving Repr

/-- Existence check (`os.path.isfile` / `os.path.exists`; every destination
in this model is a regular file, so the two agree). -/
def Fs.hasFile (fs : Fs) (n : String) : Bool :=
  (alookup fs.files n).isSome

/-- Current content of a destination (empty when absent). -/
def Fs.readF (fs : Fs) (n : String) : List String :=
  (alookup fs.files n).getD []

/-- Replace a destination's content. -/
def Fs.writeF (fs : Fs) (n : String) (ls : List String) : Fs :=
  ⟨aset fs.files n ls⟩

/-- Modelled from the spec: the counting collaborator `EventCounter` of
`pyutils.eventcounter` is not among the given sources; per the spec (§6),
`log(category)` increments a named counter and `merge_child(other)` folds
another counter's tallies into this one preserving category names. -/
structure EventCounter where
  name : String
  counts : List (String × Nat)
  deriving DecidableEq, Repr

/-- `EventCounter.log`: increment one named tally. -/
def EventCounter.log (e : EventCounter) (cat : String) : EventCounter :=
  ⟨e.name, aset e.counts cat ((alookup e.counts cat).getD 0 + 1)⟩

/-- Read one named tally (0 when the category was never logged). -/
def EventCounter.get (e : EventCounter) (cat : String) : Nat :=
  (alookup e.counts cat).getD 0

/-- `EventCounter.merge_child`: fold the child's tallies into this counter,
preserving category names. -/
def EventCounter.mergeChild (e child : EventCounter) : EventCounter :=
  ⟨e.name,
    child.counts.foldl
      (fun cs kv => aset cs kv.1 ((alookup cs kv.1).getD 0 + kv.2)) e.counts⟩

/-- One record of the asynchronous input sequence, reduced to what the three
renderers observe: its CSV header list (`csv_headers()`) and, per format, the
fully rendered output line, with `none` modelling a render or write failure
for that row (`csv_row()`/`writerow`, `json_src()`/`write`, `txt_row()`). -/
structure Item where
  headers : List String
  csvRow : Option String
  jsonRow : Option String
  txtRow : Option String

/-- The per-row export loop shared by the three renderers: a failing row is
caught, logged and tallied under `"errors"`, a successful row is written and
tallied under `"rows"`, and processing always continues with the next row. -/
def rowLoop (rows : List (Option String)) (stats : EventCounter)
    (lines : List String) : EventCounter × List String :=
  match rows with
  | [] => (stats, lines)
  | some s :: rest => rowLoop rest (stats.log "rows") (lines ++ [s])
  | none :: rest => rowLoop rest (stats.log "errors") lines

/-- The body of `export_csv` (pyutils/exportable.py lines 211-283) up to its
outermost `try`: the first record is fetched before anything else (an empty
sequence returns the fresh counter untouched); on the file branch the name is
given a `csv` suffix, a pre-existing destination without `force`/`append`
raises `FileExistsError` before any row is written, `append` only takes
effect when the file already exists, the header (the first record's
`csv_headers()` joined by the excel dialect delimiter) is written unless
appending, and then every row is processed by the failure-isolating loop. -/
def exportCsvBody (fs : Fs) (items : List Item) (filename : String)
    (force append : Bool) : Except (PyErr × EventCounter × Fs) (EventCounter × Fs) :=
  let stats : EventCounter := ⟨"CSV", []⟩
  match items with
  | [] => Except.ok (stats, fs)
  | first :: _ =>
    let fields := first.headers
    if filename = "-" then
      let header := String.intercalate "," fields
      let res := rowLoop (items.map Item.csvRow) stats []
      Except.ok (res.1, fs.writeF "-" (fs.readF "-" ++ header :: res.2))
    else
      let fn := adjustName filename "csv"
      let fileExists := fs.hasFile fn
      if fileExists && !(force || append) then
        Except.error (PyErr.fileExists, stats, fs)
      else
        let doAppend := append && fileExists
        let base := if doAppend then fs.readF fn else []
        let headerLines :=
          if doAppend then ([] : List String)
          else [String.intercalate "," fields]
        let res := rowLoop (items.map Item.csvRow) stats []
        Except.ok (res.1, fs.writeF fn (base ++ headerLines ++ res.2))

/-- `export_csv` with its outermost `except Exception` handler (lines
281-283): any exception raised by the body — including the destination
conflict — is caught and logged, and the accumulated counter is returned
normally; no exception ever escapes to the caller, so the result is always
`Except.ok`. -/
def exportCsv (fs : Fs) (items : List Item) (filename : String)
    (force append : Bool) : Except PyErr (EventCounter × Fs) :=
  match exportCsvBody fs items filename force append with
  | Except.ok r => Except.ok r
  | Except.error (_, st, f) => Except.ok (st, f)

/-- The body of `export_json` (lines 286-324) up to its outermost `try`:
unlike CSV there is no first-record prefetch and no header; rows are written
line by line with the same failure isolation. -/
def exportJsonBody (fs : Fs) (items : List Item) (filename : String)
    (force append : Bool) : Except (PyErr × EventCounter × Fs) (EventCounter × Fs) :=
  let stats : EventCounter := ⟨"JSON", []⟩
  if filename = "-" then
    let res := rowLoop (items.map Item.jsonRow) stats []
    Except.ok (res.1, fs.writeF "-" (fs.readF "-" ++ res.2))
  else
    let fn := adjustName filename "json"
    let fileExists := fs.hasFile fn
    if fileExists && !(force || append) then
      Except.error (PyErr.fileExists, stats, fs)
    else
      let doAppend := append && fileExists
      let base := if doAppend then fs.readF fn else []
      let res := rowLoop (items.map Item.jsonRow) stats []
      Except.ok (res.1, fs.writeF fn (base ++ res.2))

/-- `export_json` with its outermost handlers: nothing escapes. -/
def exportJson (fs : Fs) (items : List Item) (filename : String)
    (force append : Bool) : Except PyErr (EventCounter × Fs) :=
  match exportJsonBody fs items filename force append with
  | Except.ok r => Except.ok r
  | Except.error (_, st, f) => Except.ok (st, f)

/-- The body of `export_txt` (lines 327-365), same shape as JSON. -/
def exportTxtBody (fs : Fs) (items : List Item) (filename : String)
    (force append : Bool) : Except (PyErr × EventCounter × Fs) (EventCounter × Fs) :=
  let stats : EventCounter := ⟨"Text", []⟩
  if filename = "-" then
    let res := rowLoop (items.map Item.txtRow) stats []
    Except.ok (res.1, fs.writeF "-" (fs.readF "-" ++ res.2))
  else
    let fn := adjustName filename "txt"
    let fileExists := fs.hasFile fn
    if fileExists && !(force || append) then
      Except.error (PyErr.fileExists, stats, fs)
    else
      let doAppend := append && fileExists
      let base := if doAppend then fs.readF fn else []
      let res := rowLoop (items.map Item.txtRow) stats []
      Except.ok (res.1, fs.writeF fn (base ++ res.2))

/-- `export_txt` with its outermost handlers: nothing escapes. -/
def exportTxt (fs : Fs) (items : List Item) (filename : String)
    (force append : Bool) : Except PyErr (EventCounter × Fs) :=
  match exportTxtBody fs items filename force append with
  | Except.ok r => Except.ok r
  | Except.error (_, st, f) => Except.ok (st, f)

/-- `EXPORT_FORMATS` from pyutils/exportable.py line 208. -/
def EXPORT_FORMATS : List String :=
  ["txt", "json", "csv"]

/-- The format-resolution loop of `export` (lines 379-382): for a non-stdout
destination, `for export_format in EXPORT_FORMATS: if
filename.endswith(export_format): format = export_format` — a case-sensitive
bare-substring suffix test, no dot required. -/
def resolveFormat (filename format : String) : String :=
  if filename ≠ "-" then
    EXPORT_FORMATS.foldl
      (fun fmt ef => if strEndsWith filename ef then ef else fmt) format
  else format

/-- `export` (pyutils/exportable.py lines 368-403): resolves the format,
dispatches to the matching renderer and folds its counter into the call's
own `"write"` counter; an unrecognized resolved format raises `ValueError`,
which the surrounding `except` immediately catches and tallies as one
`"errors"` count on the `"write"` counter, and `finally: return stats`
returns the counter normally on every path — no exception ever escapes. -/
def exportTo (fs : Fs) (items : List Item) (format filename : String)
    (force append : Bool) : Except PyErr (EventCounter × Fs) :=
  let stats : EventCounter := ⟨"write", []⟩
  let fmt := resolveFormat filename format
  if fmt = "txt" then
    match exportTxt fs items filename force append with
    | Except.ok (child, fs2) => Except.ok (stats.mergeChild child, fs2)
    | Except.error _ => Except.ok (stats.log "errors", fs)
  else if fmt = "json" then
    match exportJson fs items filename force append with
    | Except.ok (child, fs2) => Except.ok (stats.mergeChild child, fs2)
    | Except.error _ => Except.ok (stats.log "errors", fs)
  else if fmt = "csv" then
    match exportCsv fs items filename force append with
    | Except.ok (child, fs2) => Except.ok (stats.mergeChild child, fs2)
    | Except.error _ => Except.ok (stats.log "errors", fs)
  else
    Except.ok (stats.log "errors", fs)

/-! Helper lemmas shared by the claim theorems. -/

theorem alookup_aset_self {α β : Type} [DecidableEq α] (l : List (α × β))
    (k : α) (v : β) : alookup (aset l k v) k = some v := by
  induction l with
  | nil => simp [aset, alookup]
  | cons p rest ih =>
    obtain ⟨a, b⟩ := p
    by_cases h : a = k
    · simp [aset, alookup, h]
    · simp [aset, alookup, h, ih]

theorem alookup_aset_ne {α β : Type} [DecidableEq α] (l : List (α × β))
    (k k' : α) (v : β) (h : k' ≠ k) :
    alookup (aset l k v) k' = alookup l k' := by
  have hne : ¬(k = k') := fun hh => h hh.symm
  induction l with
  | nil => simp [aset, alookup, hne]
  | cons p rest ih =>
    obtain ⟨a, b⟩ := p
    by_cases ha : a = k
    · subst ha
      simp [aset, alookup, hne]
    · simp [aset, alookup, ha, ih]

theorem lookupFS_eq_alookup (fs : List (String × Value)) (k : String) :
    (lookupFS fs k).map Subtype.val = alookup fs k := by
  induction fs with
  | nil => simp [lookupFS, alookup]
  | cons p rest ih =>
    obtain ⟨k2, v2⟩ := p
    by_cases h : k2 = k
    · simp [lookupFS, alookup, h]
    · rw [show alookup ((k2, v2) :: rest) k = alookup rest k by
        simp [alookup, h], ← ih]
      cases hfs : lookupFS rest k with
      | none => simp [lookupFS, h, hfs]
      | some v =>
        obtain ⟨vv, hvv⟩ := v
        simp [lookupFS, h, hfs]

/-- C2: if `a.merge(b, match_identity=true)` is called and the two identities
are defined but differ, the merge is refused: it returns `changed = false`,
leaves `a` completely unmodified, and raises no exception. -/
theorem c2_merge_identity_guard (a b : Record) (i j : Int)
    (ha : a.index = some i) (hb : b.index = some j) (hij : i ≠ j) :
    Record.update a b true = Except.ok (false, a) := by
  simp [Record.update, ha, hb, hij]

/-- Witness for C2 at concrete records with identities 1 and 2. -/
theorem c2_merge_identity_guard_witness :
    (Record.mk [] [] (some 1)).index = some 1 ∧
    (Record.mk [("x", Value.atom 9)] ["x"] (some 2)).index = some 2 ∧
    (1 : Int) ≠ 2 ∧
    Record.update (Record.mk [] [] (some 1))
        (Record.mk [("x", Value.atom 9)] ["x"] (some 2)) true =
      Except.ok (false, Record.mk [] [] (some 1)) :=
  ⟨rfl, rfl, by decide,
    c2_merge_identity_guard _ _ 1 2 rfl rfl (by decide)⟩

/-- C8: on a record whose type defines no index, the hash of
`pydantic_exportables.JSONExportable` catches the `NotImplementedError`
internally and falls back to object identity (`hash(id(self))`), the hash of
`pyutils.JSONExportable` surfaces exactly the `NotImplementedError`
"no identity" condition, and an identity-matching merge surfaces the same
condition — in every case a distinguishable no-identity condition rather
than an unhandled crash of another kind. -/
theorem c8_no_identity (r b : Record) (objId : Int) (h : r.index = none) :
    hashJE r objId = objId ∧
    hashPU r = Except.error PyErr.notImplemented ∧
    Record.update r b true = Except.error PyErr.notImplemented := by
  refine ⟨?_, ?_, ?_⟩ <;> simp [hashJE, hashPU, Record.update, h]

/-- Witness for C8 at a concrete index-less record. -/
theorem c8_no_identity_witness :
    (Record.mk [("x", Value.atom 3)] ["x"] none).index = none ∧
    (hashJE (Record.mk [("x", Value.atom 3)] ["x"] none) 7 = 7 ∧
      hashPU (Record.mk [("x", Value.atom 3)] ["x"] none) =
        Except.error PyErr.notImplemented ∧
      Record.update (Record.mk [("x", Value.atom 3)] ["x"] none)
          (Record.mk [] [] (some 1)) true =
        Except.error PyErr.notImplemented) :=
  ⟨rfl, c8_no_identity _ _ 7 rfl⟩

/-- C10: when the input object's run-time type is exactly the target class,
`transform` returns the very input object unchanged, for every registration
table — in particular a transformation registered for the class itself is
never consulted on instances of the class. -/
theorem c10_transform_identity (cls : String)
    (table : List (String × (PyObj → Option PyObj))) (obj : PyObj)
    (h : obj.ty = cls) : transform cls table obj = some obj := by
  simp [transform, h]

/-- Witness for C10: the table maps the class itself to a conversion that
would return `None`, yet the input instance is returned unchanged. -/
theorem c10_transform_identity_witness :
    (PyObj.mk "A" 0).ty = "A" ∧
    transform "A" [("A", fun _ => none)] (PyObj.mk "A" 0) =
      some (PyObj.mk "A" 0) :=
  ⟨rfl, c10_transform_identity "A" [("A", fun _ => none)] (PyObj.mk "A" 0) rfl⟩

/-- C6 counterexample: the destination name `"data.CSV"` ends with the suffix
`.csv` compared case-insensitively, so the claim requires the resolved format
to become `"csv"`; the code's suffix test is case sensitive and leaves the
caller-requested `"json"` in force. -/
theorem c6_counterexample :
    resolveFormat "data.CSV" "json" = "json" ∧ "json" ≠ "csv" :=
  ⟨rfl, by decide⟩

/-- C6 amended: for a file destination (not `"-"`), the requested format is
overridden exactly when the name ends case-sensitively with the bare string
`"csv"`, `"json"` or `"txt"` — no dot is required and upper-case suffixes do
not match; a standard-output destination is never overridden. -/
theorem c6_suffix_override (filename format : String) :
    resolveFormat filename format =
      if filename = "-" then format
      else if strEndsWith filename "csv" then "csv"
      else if strEndsWith filename "json" then "json"
      else if strEndsWith filename "txt" then "txt"
      else format := by
  by_cases h : filename = "-"
  · simp [resolveFormat, h]
  · simp [resolveFormat, h, EXPORT_FORMATS, List.foldl]

/-- C9 counterexample: resolved format `"xml"` is unrecognized, yet the call
returns normally (`Except.ok`) with the internal `ValueError` absorbed as one
`"errors"` tally on the call's own counter — no call-level failure reaches
the caller. -/
theorem c9_counterexample :
    exportTo ⟨[]⟩ [] "xml" "f" false false =
      Except.ok (⟨"write", [("errors", 1)]⟩, ⟨[]⟩) := rfl

/-- C9 amended: whenever the resolved format is none of the three recognized
formats, `export` raises `ValueError` internally, immediately catches it,
tallies exactly one error on its own `"write"` counter, and returns that
counter normally with the file system untouched; the condition never
propagates to the caller as a call-level failure. -/
theorem c9_unknown_format (fs : Fs) (items : List Item)
    (format filename : String) (force append : Bool)
    (h1 : resolveFormat filename format ≠ "txt")
    (h2 : resolveFormat filename format ≠ "json")
    (h3 : resolveFormat filename format ≠ "csv") :
    exportTo fs items format filename force append =
      Except.ok (⟨"write", [("errors", 1)]⟩, fs) := by
  simp [exportTo, h1, h2, h3, EventCounter.log, aset, alookup]

/-- Witness for C9 at a concrete unrecognized format. -/
theorem c9_unknown_format_witness :
    resolveFormat "g" "yaml" ≠ "txt" ∧ resolveFormat "g" "yaml" ≠ "json" ∧
    resolveFormat "g" "yaml" ≠ "csv" ∧
    exportTo ⟨[("g.json", ["keep"])]⟩ [] "yaml" "g" false false =
      Except.ok (⟨"write", [("errors", 1)]⟩, ⟨[("g.json", ["keep"])]⟩) :=
  ⟨by decide, by decide, by decide,
    c9_unknown_format _ _ "yaml" "g" false false (by decide) (by decide)
      (by decide)⟩

/-- C5 counterexample: the destination `"d.csv"` already holds content and
neither `force` nor `append` is set; the `FileExistsError` is indeed raised
before any row is written (left conjunct), but `export_csv` itself catches it
and returns its zero-count counter normally (right conjunct) — the condition
never propagates to the caller as a call-level failure. -/
theorem c5_counterexample :
    exportCsvBody ⟨[("d.csv", ["old"])]⟩
        [⟨["h"], some "r", none, none⟩] "d.csv" false false =
      Except.error (PyErr.fileExists, ⟨"CSV", []⟩, ⟨[("d.csv", ["old"])]⟩) ∧
    exportCsv ⟨[("d.csv", ["old"])]⟩
        [⟨["h"], some "r", none, none⟩] "d.csv" false false =
      Except.ok (⟨"CSV", []⟩, ⟨[("d.csv", ["old"])]⟩) :=
  ⟨rfl, rfl⟩

/-- C5 amended: for a non-empty input and a file destination that already
exists, with neither `force` nor `append` set, the export stops with a
`FileExistsError` before any row is written and the file system (in
particular the existing file's content) is left unmodified — but the
condition is caught inside `export_csv` itself, which returns its counter
normally with zero rows and zero errors; it is not absorbed into the per-row
error counts and it is not surfaced to the caller as a call-level failure
either. -/
theorem c5_destination_conflict (fs : Fs) (items : List Item)
    (filename : String) (first : Item) (rest : List Item)
    (hitems : items = first :: rest) (hstd : filename ≠ "-")
    (hex : fs.hasFile (adjustName filename "csv") = true) :
    exportCsvBody fs items filename false false =
      Except.error (PyErr.fileExists, ⟨"CSV", []⟩, fs) ∧
    exportCsv fs items filename false false =
      Except.ok (⟨"CSV", []⟩, fs) := by
  subst hitems
  refine ⟨?_, ?_⟩ <;> simp [exportCsv, exportCsvBody, hstd, hex]

/-- Witness for C5 at a concrete pre-existing destination. -/
theorem c5_destination_conflict_witness :
    [(⟨["a"], some "1", none, none⟩ : Item)] =
      ⟨["a"], some "1", none, none⟩ :: [] ∧
    "out" ≠ "-" ∧
    Fs.hasFile ⟨[("out.csv", ["x"])]⟩ (adjustName "out" "csv") = true ∧
    (exportCsvBody ⟨[("out.csv", ["x"])]⟩ [⟨["a"], some "1", none, none⟩]
        "out" false false =
      Except.error (PyErr.fileExists, ⟨"CSV", []⟩, ⟨[("out.csv", ["x"])]⟩) ∧
    exportCsv ⟨[("out.csv", ["x"])]⟩ [⟨["a"], some "1", none, none⟩]
        "out" false false =
      Except.ok (⟨"CSV", []⟩, ⟨[("out.csv", ["x"])]⟩)) :=
  ⟨rfl, by decide, by decide,
    c5_destination_conflict _ _ "out" _ [] rfl (by decide) (by decide)⟩

theorem get_log_self (e : EventCounter) (c : String) :
    (e.log c).get c = e.get c + 1 := by
  simp [EventCounter.log, EventCounter.get, alookup_aset_self]

theorem get_log_ne (e : EventCounter) (c c' : String) (h : c' ≠ c) :
    (e.log c).get c' = e.get c' := by
  simp [EventCounter.log, EventCounter.get, alookup_aset_ne _ _ _ _ h]

theorem rowLoop_lines (rows : List (Option String)) :
    ∀ stats lines, (rowLoop rows stats lines).2 = lines ++ rows.reduceOption := by
  induction rows with
  | nil => intro stats lines; simp [rowLoop]
  | cons o rest ih =>
    intro stats lines
    cases o with
    | none => simp [rowLoop, ih]
    | some s => simp [rowLoop, ih]

theorem rowLoop_rows (rows : List (Option String)) :
    ∀ stats lines,
      (rowLoop rows stats lines).1.get "rows" =
        stats.get "rows" + rows.reduceOption.length := by
  induction rows with
  | nil => intro stats lines; simp [rowLoop]
  | cons o rest ih =>
    intro stats lines
    cases o with
    | none =>
      rw [show rowLoop (none :: rest) stats lines =
        rowLoop rest (stats.log "errors") lines from rfl, ih]
      rw [get_log_ne _ _ _ (by decide)]
      simp
    | some s =>
      rw [show rowLoop (some s :: rest) stats lines =
        rowLoop rest (stats.log "rows") (lines ++ [s]) from rfl, ih]
      rw [get_log_self]
      simp
      omega

theorem rowLoop_errors (rows : List (Option String)) :
    ∀ stats lines,
      (rowLoop rows stats lines).1.get "errors" =
        stats.get "errors" + rows.countP (fun o => o.isNone) := by
  induction rows with
  | nil => intro stats lines; simp [rowLoop]
  | cons o rest ih =>
    intro stats lines
    cases o with
    | none =>
      rw [show rowLoop (none :: rest) stats lines =
        rowLoop rest (stats.log "errors") lines from rfl, ih]
      rw [get_log_self]
      simp [List.countP_cons]
      omega
    | some s =>
      rw [show rowLoop (some s :: rest) stats lines =
        rowLoop rest (stats.log "rows") (lines ++ [s]) from rfl, ih]
      rw [get_log_ne _ _ _ (by decide)]
      simp [List.countP_cons]

/-- C7: exporting a non-empty sequence to a fresh CSV file destination
succeeds as a whole; every failing row is tallied as one error while the
export continues, so the written file consists of the header (from the first
record) followed by exactly the successfully rendered rows in their original
input order, the row tally equals the number of non-failing records, and the
error tally equals the number of failing records. -/
theorem c7_row_isolation (fs : Fs) (items : List Item) (filename : String)
    (first : Item) (rest : List Item) (hitems : items = first :: rest)
    (hstd : filename ≠ "-")
    (hfresh : fs.hasFile (adjustName filename "csv") = false) :
    ∃ st : EventCounter,
      exportCsv fs items filename false false =
        Except.ok (st,
          fs.writeF (adjustName filename "csv")
            (String.intercalate "," first.headers ::
              (items.map Item.csvRow).reduceOption)) ∧
      st.get "rows" = (items.map Item.csvRow).reduceOption.length ∧
      st.get "errors" = (items.map Item.csvRow).countP (fun o => o.isNone) := by
  subst hitems
  refine ⟨(rowLoop ((first :: rest).map Item.csvRow) ⟨"CSV", []⟩ []).1, ?_, ?_, ?_⟩
  · simp only [exportCsv, exportCsvBody, hstd, hfresh, if_neg hstd]
    simp [rowLoop_lines]
  · rw [rowLoop_rows]
    simp [EventCounter.get, alookup]
  · rw [rowLoop_errors]
    simp [EventCounter.get, alookup]

/-- Witness for C7: five records with the third one failing yield four
written rows `1,2,4,5` in order after the header, four row tallies and one
error tally. -/
theorem c7_row_isolation_witness :
    ([⟨["h"], some "1", none, none⟩, ⟨["h"], some "2", none, none⟩,
      ⟨["h"], none, none, none⟩, ⟨["h"], some "4", none, none⟩,
      ⟨["h"], some "5", none, none⟩] : List Item) =
      ⟨["h"], some "1", none, none⟩ ::
        [⟨["h"], some "2", none, none⟩, ⟨["h"], none, none, none⟩,
          ⟨["h"], some "4", none, none⟩, ⟨["h"], some "5", none, none⟩] ∧
    "out" ≠ "-" ∧
    Fs.hasFile ⟨[]⟩ (adjustName "out" "csv") = false ∧
    (∃ st : EventCounter,
      exportCsv ⟨[]⟩
          [⟨["h"], some "1", none, none⟩, ⟨["h"], some "2", none, none⟩,
            ⟨["h"], none, none, none⟩, ⟨["h"], some "4", none, none⟩,
            ⟨["h"], some "5", none, none⟩] "out" false false =
        Except.ok (st,
          Fs.writeF ⟨[]⟩ (adjustName "out" "csv")
            (String.intercalate "," ["h"] ::
              (([⟨["h"], some "1", none, none⟩, ⟨["h"], some "2", none, none⟩,
                ⟨["h"], none, none, none⟩, ⟨["h"], some "4", none, none⟩,
                ⟨["h"], some "5", none, none⟩] : List Item).map
                  Item.csvRow).reduceOption)) ∧
      st.get "rows" =
        (([⟨["h"], some "1", none, none⟩, ⟨["h"], some "2", none, none⟩,
          ⟨["h"], none, none, none⟩, ⟨["h"], some "4", none, none⟩,
          ⟨["h"], some "5", none, none⟩] : List Item).map
            Item.csvRow).reduceOption.length ∧
      st.get "errors" =
        (([⟨["h"], some "1", none, none⟩, ⟨["h"], some "2", none, none⟩,
          ⟨["h"], none, none, none⟩, ⟨["h"], some "4", none, none⟩,
          ⟨["h"], some "5", none, none⟩] : List Item).map
            Item.csvRow).countP (fun o => o.isNone)) :=
  ⟨rfl, by decide, by decide,
    c7_row_isolation ⟨[]⟩ _ "out" _ _ rfl (by decide) (by decide)⟩

theorem filterMap_alookup_of_nodup (g : Int → Record → String) :
    ∀ root : List (Int × Record), (keysOf root).Nodup →
      (keysOf root).filterMap (fun k => (alookup root k).map (g k)) =
        root.map (fun kv => g kv.1 kv.2) := by
  intro root
  induction root with
  | nil => intro _; simp [keysOf]
  | cons p rest ih =>
    obtain ⟨k, r⟩ := p
    intro hnd
    rw [show keysOf ((k, r) :: rest) = k :: keysOf rest from rfl] at hnd ⊢
    obtain ⟨hk, hrest⟩ := List.nodup_cons.mp hnd
    rw [List.filterMap_cons]
    rw [show alookup ((k, r) :: rest) k = some r by simp [alookup]]
    simp only [Option.map_some']
    rw [List.filterMap_congr (g := fun k2 => (alookup rest k2).map (g k2))
      (fun k2 hk2 => by
        have : ¬(k = k2) := fun he => hk (he ▸ hk2)
        simp [alookup, this])]
    rw [ih hrest]
    simp

/-- C4 counterexample: a sorted collection whose backing storage holds key 2
before key 1 emits its whole-collection source JSON in storage order `2, 1`,
while its iteration order is the ascending `1, 2` — the emission order does
not follow the iteration order. -/
theorem c4_counterexample :
    RootDict.jsonSrc
        ⟨[(2, Record.mk [] [] none), (1, Record.mk [] [] none)], true⟩
        (fun _ => "0") ≠
      RootDict.jsonInOrder
        ⟨[(2, Record.mk [] [] none), (1, Record.mk [] [] none)], true⟩
        (fun _ => "0")
        (RootDict.iterKeys
          ⟨[(2, Record.mk [] [] none), (1, Record.mk [] [] none)], true⟩) := by
  decide

/-- C4 amended: the emission order of entries in the whole-collection JSON
view is the backing dict's storage order (`self.items()`), independent of the
`_sorted` flag; it therefore coincides with the collection's iteration order
only when sorting is disabled or the storage already happens to be in
ascending key order. -/
theorem c4_emission_order (d : RootDict) (render : Record → String)
    (hnd : (keysOf d.root).Nodup) :
    RootDict.jsonSrc d render =
      RootDict.jsonInOrder d render (keysOf d.root) := by
  unfold RootDict.jsonSrc RootDict.jsonInOrder
  rw [filterMap_alookup_of_nodup (fun k r => entryStr k (render r)) d.root hnd]

/-- Witness for C4 at a concrete two-element unsorted-storage collection. -/
theorem c4_emission_order_witness :
    (keysOf [(2, Record.mk [] [] none), (1, Record.mk [] [] none)]).Nodup ∧
    RootDict.jsonSrc
        ⟨[(2, Record.mk [] [] none), (1, Record.mk [] [] none)], true⟩
        (fun _ => "1") =
      RootDict.jsonInOrder
        ⟨[(2, Record.mk [] [] none), (1, Record.mk [] [] none)], true⟩
        (fun _ => "1")
        (keysOf [(2, Record.mk [] [] none), (1, Record.mk [] [] none)]) :=
  ⟨by decide,
    c4_emission_order
      ⟨[(2, Record.mk [] [] none), (1, Record.mk [] [] none)], true⟩
      (fun _ => "1") (by decide)⟩

theorem mem_keysOf_iff (root : List (Int × Record)) (k : Int) :
    k ∈ keysOf root ↔ (alookup root k).isSome := by
  induction root with
  | nil => simp [keysOf, alookup]
  | cons p rest ih =>
    obtain ⟨a, b⟩ := p
    rw [show keysOf ((a, b) :: rest) = a :: keysOf rest from rfl]
    by_cases ha : a = k
    · subst ha
      simp [alookup]
    · have hka : ¬(k = a) := fun he => ha he.symm
      simp [alookup, ha, hka, ih]

theorem updApply_acc (new : RootDict) (matchIndex : Bool) :
    ∀ (ks : List Int) (root : List (Int × Record)) (acc : List Int)
      (root2 : List (Int × Record)) (idx : List Int),
      RootDict.updApply root new ks matchIndex acc = Except.ok (root2, idx) →
      idx = acc ++ ks := by
  intro ks
  induction ks with
  | nil =>
    intro root acc root2 idx h
    simp only [RootDict.updApply, Except.ok.injEq, Prod.mk.injEq] at h
    simp [h.2]
  | cons k rest ih =>
    intro root acc root2 idx h
    simp only [RootDict.updApply] at h
    split at h
    · split at h
      · simp at h
      · have := ih _ _ _ _ h
        simp [this]
    all_goals simp at h

/-- C1 counterexample: the two single-entry collections share key 5, the
stored records differ as whole values (`x = 1` vs `x = 0`), but the incoming
record has no explicitly-set field, so the per-record merge reports no change
(second conjunct) — yet key 5 is still returned in `updated` (first
conjunct), contradicting the claim that a key enters `updated` only if its
merge reported an actual field-level change. -/
theorem c1_counterexample :
    RootDict.update
        ⟨[(5, Record.mk [("x", Value.atom 1)] ["x"] (some 5))], true⟩
        ⟨[(5, Record.mk [("x", Value.atom 0)] [] (some 5))], true⟩ true =
      Except.ok ([], [5],
        ⟨[(5, Record.mk [("x", Value.atom 1)] ["x"] (some 5))], true⟩) ∧
    Record.update (Record.mk [("x", Value.atom 1)] ["x"] (some 5))
        (Record.mk [("x", Value.atom 0)] [] (some 5)) true =
      Except.ok (false, Record.mk [("x", Value.atom 1)] ["x"] (some 5)) := by
  have hrec : Record.update (Record.mk [("x", Value.atom 1)] ["x"] (some 5))
      (Record.mk [("x", Value.atom 0)] [] (some 5)) true =
      Except.ok (false, Record.mk [("x", Value.atom 1)] ["x"] (some 5)) := by
    simp [Record.update, Record.updateLoop, Record.index, Record.fields,
      Record.fieldsSet]
  refine ⟨?_, hrec⟩
  simp [RootDict.update, RootDict.updApply, RootDict.addAll, keysOf, diffL,
    interL, alookup, aset, recEq, fieldsEq, valEq, hrec]

/-- C1 amended: on a successful bulk update, `added` is exactly
`keys(new) - keys(self)`, `added` and `updated` are disjoint subsets of
`keys(new)`, and a key is in `updated` if and only if it is present in both
collections and the two stored records differ as whole values — the
per-record merge is applied to every such key but its reported change flag
is ignored, so a key whose records differ while the merge reports no change
is still included in `updated`. -/
theorem c1_update_partition (X Y : RootDict) (mi : Bool)
    (added updIdx : List Int) (X2 : RootDict)
    (h : RootDict.update X Y mi = Except.ok (added, updIdx, X2)) :
    added = diffL (keysOf Y.root) (keysOf X.root) ∧
    (∀ k, k ∈ added ↔ (k ∈ keysOf Y.root ∧ k ∉ keysOf X.root)) ∧
    (∀ k, k ∈ updIdx ↔ (k ∈ keysOf Y.root ∧ k ∈ keysOf X.root ∧
      ∃ ry rx, alookup Y.root k = some ry ∧ alookup X.root k = some rx ∧
        recEq ry rx = false)) ∧
    (∀ k, k ∈ added → k ∉ updIdx) := by
  simp only [RootDict.update] at h
  split at h
  case h_1 => simp at h
  case h_2 root2 updatedIdx heq =>
    split at h
    case h_1 => simp at h
    case h_2 root3 heq2 =>
      simp only [Except.ok.injEq, Prod.mk.injEq] at h
      obtain ⟨hadd, hupd, -⟩ := h
      have hidx : updIdx =
          (interL (keysOf Y.root) (keysOf X.root)).filter (fun k =>
            match alookup Y.root k, alookup X.root k with
            | some a, some b => !recEq a b
            | _, _ => false) := by
        have := updApply_acc Y mi _ _ _ _ _ heq
        rw [← hupd, this]
        simp
      have hmem_upd : ∀ k, k ∈ updIdx ↔ (k ∈ keysOf Y.root ∧
          k ∈ keysOf X.root ∧
          ∃ ry rx, alookup Y.root k = some ry ∧ alookup X.root k = some rx ∧
            recEq ry rx = false) := by
        intro k
        rw [hidx, List.mem_filter]
        constructor
        · rintro ⟨hkc, hqk⟩
          rw [interL, List.mem_filter] at hkc
          obtain ⟨hky, hkx⟩ := hkc
          have hkx2 : k ∈ keysOf X.root := by simpa using hkx
          obtain ⟨ry, hry⟩ :=
            Option.isSome_iff_exists.mp ((mem_keysOf_iff _ _).mp hky)
          obtain ⟨rx, hrx⟩ :=
            Option.isSome_iff_exists.mp ((mem_keysOf_iff _ _).mp hkx2)
          rw [hry, hrx] at hqk
          refine ⟨hky, hkx2, ry, rx, hry, hrx, ?_⟩
          simpa using hqk
        · rintro ⟨hky, hkx, ry, rx, hry, hrx, hne⟩
          refine ⟨?_, ?_⟩
          · rw [interL, List.mem_filter]
            exact ⟨hky, by simpa using hkx⟩
          · rw [hry, hrx]
            simpa using hne
      refine ⟨hadd.symm, ?_, hmem_upd, ?_⟩
      · intro k
        rw [← hadd]
        simp [diffL, List.mem_filter]
      · intro k hka
        rw [← hadd] at hka
        simp only [diffL, List.mem_filter] at hka
        intro hku
        have hx : k ∈ keysOf X.root := ((hmem_upd k).mp hku).2.1
        have hnx : k ∉ keysOf X.root := by simpa using hka.2
        exact hnx hx

/-- Witness for C1: one added key (2) and one genuinely updated key (1). -/
theorem c1_update_partition_witness :
    RootDict.update
        ⟨[(1, Record.mk [("x", Value.atom 1)] ["x"] (some 1))], true⟩
        ⟨[(1, Record.mk [("x", Value.atom 2)] ["x"] (some 1)),
          (2, Record.mk [("x", Value.atom 3)] ["x"] (some 2))], true⟩ true =
      Except.ok ([2], [1],
        ⟨[(1, Record.mk [("x", Value.atom 2)] ["x"] (some 1)),
          (2, Record.mk [("x", Value.atom 3)] ["x"] (some 2))], true⟩) ∧
    ([2] = diffL
        (keysOf [(1, Record.mk [("x", Value.atom 2)] ["x"] (some 1)),
          (2, Record.mk [("x", Value.atom 3)] ["x"] (some 2))])
        (keysOf [(1, Record.mk [("x", Value.atom 1)] ["x"] (some 1))]) ∧
      (∀ k, k ∈ ([2] : List Int) ↔
        (k ∈ keysOf [(1, Record.mk [("x", Value.atom 2)] ["x"] (some 1)),
            (2, Record.mk [("x", Value.atom 3)] ["x"] (some 2))] ∧
          k ∉ keysOf [(1, Record.mk [("x", Value.atom 1)] ["x"] (some 1))])) ∧
      (∀ k, k ∈ ([1] : List Int) ↔
        (k ∈ keysOf [(1, Record.mk [("x", Value.atom 2)] ["x"] (some 1)),
            (2, Record.mk [("x", Value.atom 3)] ["x"] (some 2))] ∧
          k ∈ keysOf [(1, Record.mk [("x", Value.atom 1)] ["x"] (some 1))] ∧
          ∃ ry rx,
            alookup [(1, Record.mk [("x", Value.atom 2)] ["x"] (some 1)),
              (2, Record.mk [("x", Value.atom 3)] ["x"] (some 2))] k =
              some ry ∧
            alookup [(1, Record.mk [("x", Value.atom 1)] ["x"] (some 1))] k =
              some rx ∧
            recEq ry rx = false)) ∧
      (∀ k, k ∈ ([2] : List Int) → k ∉ ([1] : List Int))) := by
  have h : RootDict.update
      ⟨[(1, Record.mk [("x", Value.atom 1)] ["x"] (some 1))], true⟩
      ⟨[(1, Record.mk [("x", Value.atom 2)] ["x"] (some 1)),
        (2, Record.mk [("x", Value.atom 3)] ["x"] (some 2))], true⟩ true =
      Except.ok ([2], [1],
        ⟨[(1, Record.mk [("x", Value.atom 2)] ["x"] (some 1)),
          (2, Record.mk [("x", Value.atom 3)] ["x"] (some 2))], true⟩) := by
    simp [RootDict.update, RootDict.updApply, RootDict.addAll, keysOf, diffL,
      interL, alookup, aset, recEq, fieldsEq, valEq, Record.update,
      Record.updateLoop, Record.index, Record.fields, Record.fieldsSet,
      lookupFS, addKey]
  exact ⟨h, c1_update_partition _ _ _ _ _ _ h⟩

theorem mergedField_atom (sv : Option Value) (a : Int) (mi : Bool) :
    mergedField sv (Value.atom a) mi = Except.ok (true, Value.atom a) := by
  cases sv with
  | none => rfl
  | some w => cases w <;> rfl

theorem updateLoop_cons_none (s : Record) (nf : List (String × Value))
    (key : String) (rest : List String) (mi acc : Bool)
    (hfs : lookupFS nf key = none) :
    Record.updateLoop s nf (key :: rest) mi acc =
      Except.error PyErr.attrError := by
  simp only [Record.updateLoop, hfs]

theorem updateLoop_cons_atom (s : Record) (nf : List (String × Value))
    (key : String) (rest : List String) (mi acc : Bool) (a : Int)
    (hp : sizeOf (Value.atom a) < sizeOf nf)
    (hfs : lookupFS nf key = some ⟨Value.atom a, hp⟩) :
    Record.updateLoop s nf (key :: rest) mi acc =
      Record.updateLoop
        (Record.mk (aset s.fields key (Value.atom a))
          (addKey s.fieldsSet key) s.index) nf rest mi true := by
  simp only [Record.updateLoop, hfs]

theorem updateLoop_cons_sub_none (s : Record) (nf : List (String × Value))
    (key : String) (rest : List String) (mi acc : Bool) (vr : Record)
    (hp : sizeOf (Value.sub vr) < sizeOf nf)
    (hfs : lookupFS nf key = some ⟨Value.sub vr, hp⟩)
    (hold : alookup s.fields key = none) :
    Record.updateLoop s nf (key :: rest) mi acc =
      Except.error PyErr.attrError := by
  simp only [Record.updateLoop, hfs, hold]

theorem updateLoop_cons_sub_atom (s : Record) (nf : List (String × Value))
    (key : String) (rest : List String) (mi acc : Bool) (vr : Record) (b : Int)
    (hp : sizeOf (Value.sub vr) < sizeOf nf)
    (hfs : lookupFS nf key = some ⟨Value.sub vr, hp⟩)
    (hold : alookup s.fields key = some (Value.atom b)) :
    Record.updateLoop s nf (key :: rest) mi acc =
      Record.updateLoop
        (Record.mk (aset s.fields key (Value.sub vr))
          (addKey s.fieldsSet key) s.index) nf rest mi true := by
  simp only [Record.updateLoop, hfs, hold]

theorem updateLoop_cons_sub_sub_err (s : Record) (nf : List (String × Value))
    (key : String) (rest : List String) (mi acc : Bool) (vr oldr : Record)
    (e : PyErr) (hp : sizeOf (Value.sub vr) < sizeOf nf)
    (hfs : lookupFS nf key = some ⟨Value.sub vr, hp⟩)
    (hold : alookup s.fields key = some (Value.sub oldr))
    (hupd : Record.update oldr vr mi = Except.error e) :
    Record.updateLoop s nf (key :: rest) mi acc = Except.error e := by
  simp only [Record.updateLoop, hfs, hold, hupd]

theorem updateLoop_cons_sub_sub_ok (s : Record) (nf : List (String × Value))
    (key : String) (rest : List String) (mi acc : Bool) (vr oldr : Record)
    (chk : Bool) (oldr2 : Record) (hp : sizeOf (Value.sub vr) < sizeOf nf)
    (hfs : lookupFS nf key = some ⟨Value.sub vr, hp⟩)
    (hold : alookup s.fields key = some (Value.sub oldr))
    (hupd : Record.update oldr vr mi = Except.ok (chk, oldr2)) :
    Record.updateLoop s nf (key :: rest) mi acc =
      Record.updateLoop
        (Record.mk (aset s.fields key (Value.sub oldr2))
          s.fieldsSet s.index) nf rest mi (acc || chk) := by
  simp only [Record.updateLoop, hfs, hold, hupd]

theorem Record.fields_mk (f : List (String × Value)) (fs : List String)
    (i : Option Int) : (Record.mk f fs i).fields = f := rfl

theorem Record.fieldsSet_mk (f : List (String × Value)) (fs : List String)
    (i : Option Int) : (Record.mk f fs i).fieldsSet = fs := rfl

theorem Record.index_mk (f : List (String × Value)) (fs : List String)
    (i : Option Int) : (Record.mk f fs i).index = i := rfl

theorem updateLoop_spec (keys : List String) :
    ∀ (s : Record) (nf : List (String × Value)) (mi : Bool) (acc ch : Bool)
      (s2 : Record),
      Record.updateLoop s nf keys mi acc = Except.ok (ch, s2) →
      keys.Nodup →
      s2.index = s.index ∧
      (∀ k, k ∉ keys → alookup s2.fields k = alookup s.fields k) ∧
      (∀ k, k ∈ keys → ∃ v p, alookup nf k = some v ∧
        mergedField (alookup s.fields k) v mi = Except.ok p ∧
        alookup s2.fields k = some p.2) ∧
      (ch = true ↔ acc = true ∨ ∃ k, k ∈ keys ∧ ∃ v p,
        alookup nf k = some v ∧
        mergedField (alookup s.fields k) v mi = Except.ok p ∧
        p.1 = true) := by
  induction keys with
  | nil =>
    intro s nf mi acc ch s2 h _
    simp only [Record.updateLoop, Except.ok.injEq, Prod.mk.injEq] at h
    obtain ⟨hc, hs⟩ := h
    subst hc
    subst hs
    refine ⟨rfl, fun k _ => rfl, fun k hk => absurd hk (List.not_mem_nil k), ?_⟩
    simp
  | cons key rest ih =>
    intro s nf mi acc ch s2 h hnd
    obtain ⟨hknotin, hndrest⟩ := List.nodup_cons.mp hnd
    cases hfs : lookupFS nf key with
    | none =>
      rw [updateLoop_cons_none s nf key rest mi acc hfs] at h
      exact absurd h (by simp)
    | some vv =>
      obtain ⟨v, hsz⟩ := vv
      have halk : alookup nf key = some v := by
        have hbr := lookupFS_eq_alookup nf key
        rw [hfs] at hbr
        simpa using hbr.symm
      cases v with
      | atom a =>
        rw [updateLoop_cons_atom s nf key rest mi acc a hsz hfs] at h
        obtain ⟨hidx, hunt, hper, hch⟩ := ih _ nf mi true ch s2 h hndrest
        have hmfk : mergedField (alookup s.fields key) (Value.atom a) mi =
            Except.ok (true, Value.atom a) := mergedField_atom _ _ _
        simp only [Record.fields_mk, Record.index_mk] at hidx hunt hper hch
        refine ⟨hidx, ?_, ?_, ?_⟩
        · intro k hk
          simp only [List.mem_cons, not_or] at hk
          rw [hunt k hk.2]
          exact alookup_aset_ne _ _ _ _ hk.1
        · intro k hk
          rcases List.mem_cons.mp hk with he | hkr
          · subst he
            refine ⟨Value.atom a, (true, Value.atom a), halk, hmfk, ?_⟩
            rw [hunt k hknotin]
            exact alookup_aset_self _ _ _
          · have hkne : k ≠ key := fun he => hknotin (he ▸ hkr)
            obtain ⟨v2, p2, hv2, hmf2, hl2⟩ := hper k hkr
            rw [alookup_aset_ne _ _ _ _ hkne] at hmf2
            exact ⟨v2, p2, hv2, hmf2, hl2⟩
        · simp only [true_or, iff_true] at hch
          constructor
          · intro _
            exact Or.inr ⟨key, List.mem_cons_self key rest, Value.atom a,
              (true, Value.atom a), halk, hmfk, rfl⟩
          · intro _
            exact hch
      | sub vr =>
        cases hold : alookup s.fields key with
        | none =>
          rw [updateLoop_cons_sub_none s nf key rest mi acc vr hsz hfs hold]
            at h
          exact absurd h (by simp)
        | some w =>
          cases w with
          | atom bb =>
            rw [updateLoop_cons_sub_atom s nf key rest mi acc vr bb hsz hfs
              hold] at h
            obtain ⟨hidx, hunt, hper, hch⟩ := ih _ nf mi true ch s2 h hndrest
            have hmfk : mergedField (alookup s.fields key) (Value.sub vr) mi =
                Except.ok (true, Value.sub vr) := by
              rw [hold]
              simp only [mergedField]
            simp only [Record.fields_mk, Record.index_mk] at hidx hunt hper hch
            refine ⟨hidx, ?_, ?_, ?_⟩
            · intro k hk
              simp only [List.mem_cons, not_or] at hk
              rw [hunt k hk.2]
              exact alookup_aset_ne _ _ _ _ hk.1
            · intro k hk
              rcases List.mem_cons.mp hk with he | hkr
              · subst he
                refine ⟨Value.sub vr, (true, Value.sub vr), halk, hmfk, ?_⟩
                rw [hunt k hknotin]
                exact alookup_aset_self _ _ _
              · have hkne : k ≠ key := fun he => hknotin (he ▸ hkr)
                obtain ⟨v2, p2, hv2, hmf2, hl2⟩ := hper k hkr
                rw [alookup_aset_ne _ _ _ _ hkne] at hmf2
                exact ⟨v2, p2, hv2, hmf2, hl2⟩
            · simp only [true_or, iff_true] at hch
              constructor
              · intro _
                exact Or.inr ⟨key, List.mem_cons_self key rest, Value.sub vr,
                  (true, Value.sub vr), halk, hmfk, rfl⟩
              · intro _
                exact hch
          | sub oldr =>
            cases hupd : Record.update oldr vr mi with
            | error e =>
              rw [updateLoop_cons_sub_sub_err s nf key rest mi acc vr oldr e
                hsz hfs hold hupd] at h
              exact absurd h (by simp)
            | ok pr =>
              obtain ⟨chk, oldr2⟩ := pr
              rw [updateLoop_cons_sub_sub_ok s nf key rest mi acc vr oldr chk
                oldr2 hsz hfs hold hupd] at h
              obtain ⟨hidx, hunt, hper, hch⟩ :=
                ih _ nf mi (acc || chk) ch s2 h hndrest
              have hmfk : mergedField (alookup s.fields key) (Value.sub vr)
                  mi = Except.ok (chk, Value.sub oldr2) := by
                rw [hold]
                simp only [mergedField, hupd]
              simp only [Record.fields_mk, Record.index_mk] at hidx hunt hper hch
              refine ⟨hidx, ?_, ?_, ?_⟩
              · intro k hk
                simp only [List.mem_cons, not_or] at hk
                rw [hunt k hk.2]
                exact alookup_aset_ne _ _ _ _ hk.1
              · intro k hk
                rcases List.mem_cons.mp hk with he | hkr
                · subst he
                  refine ⟨Value.sub vr, (chk, Value.sub oldr2), halk, hmfk, ?_⟩
                  rw [hunt k hknotin]
                  exact alookup_aset_self _ _ _
                · have hkne : k ≠ key := fun he => hknotin (he ▸ hkr)
                  obtain ⟨v2, p2, hv2, hmf2, hl2⟩ := hper k hkr
                  rw [alookup_aset_ne _ _ _ _ hkne] at hmf2
                  exact ⟨v2, p2, hv2, hmf2, hl2⟩
              · have hEs : (∃ k, k ∈ rest ∧ ∃ v2 p2,
                    alookup nf k = some v2 ∧
                    mergedField (alookup (aset s.fields key (Value.sub oldr2))
                      k) v2 mi = Except.ok p2 ∧ p2.1 = true) ↔
                    (∃ k, k ∈ rest ∧ ∃ v2 p2, alookup nf k = some v2 ∧
                    mergedField (alookup s.fields k) v2 mi = Except.ok p2 ∧
                    p2.1 = true) := by
                  constructor
                  · rintro ⟨k, hkr, v2, p2, hv2, hmf2, hp2⟩
                    have hkne : k ≠ key := fun he => hknotin (he ▸ hkr)
                    rw [alookup_aset_ne _ _ _ _ hkne] at hmf2
                    exact ⟨k, hkr, v2, p2, hv2, hmf2, hp2⟩
                  · rintro ⟨k, hkr, v2, p2, hv2, hmf2, hp2⟩
                    have hkne : k ≠ key := fun he => hknotin (he ▸ hkr)
                    refine ⟨k, hkr, v2, p2, hv2, ?_, hp2⟩
                    rw [alookup_aset_ne _ _ _ _ hkne]
                    exact hmf2
                rw [hEs] at hch
                have hEk : (∃ v2 p2, alookup nf key = some v2 ∧
                    mergedField (alookup s.fields key) v2 mi = Except.ok p2 ∧
                    p2.1 = true) ↔ chk = true := by
                  constructor
                  · rintro ⟨v2, p2, hv2, hmf2, hp2⟩
                    rw [halk] at hv2
                    injection hv2 with hv2e
                    subst hv2e
                    rw [hmfk] at hmf2
                    injection hmf2 with hpe
                    rw [← hpe] at hp2
                    simpa using hp2
                  · intro hchk
                    exact ⟨Value.sub vr, (chk, Value.sub oldr2), halk, hmfk,
                      hchk⟩
                constructor
                · intro hcht
                  rcases hch.mp hcht with hor | hE
                  · simp only [Bool.or_eq_true] at hor
                    rcases hor with hacct | hchkt
                    · exact Or.inl hacct
                    · exact Or.inr ⟨key, List.mem_cons_self key rest,
                        hEk.mpr hchkt⟩
                  · obtain ⟨k, hkr, hrest⟩ := hE
                    exact Or.inr ⟨k, List.mem_cons_of_mem key hkr, hrest⟩
                · intro hor
                  apply hch.mpr
                  rcases hor with hacct | ⟨k, hkmem, hE⟩
                  · exact Or.inl (by simp [hacct])
                  · rcases List.mem_cons.mp hkmem with he | hkr
                    · subst he
                      exact Or.inl (by simp [hEk.mp hE])
                    · exact Or.inr ⟨k, hkr, hE⟩

/-- C3: for two records with the same (defined) identity, a successful
`a.merge(b)` changes exactly the fields explicitly set on `b`: every field
unset on `b` keeps its value on `a`; every field set on `b` ends up as
`mergedField` prescribes — overwritten with `b`'s value, except that when
both sides hold nested records the receiver's nested record is merged
recursively — and the merge reports a change exactly when some set field
took the overwrite path or some nested merge itself reported a change. -/
theorem c3_merge_asymmetry (a b : Record) (i : Int) (ch : Bool) (a2 : Record)
    (ha : a.index = some i) (hb : b.index = some i)
    (hnd : b.fieldsSet.Nodup)
    (h : Record.update a b true = Except.ok (ch, a2)) :
    a2.index = a.index ∧
    (∀ k, k ∉ b.fieldsSet → alookup a2.fields k = alookup a.fields k) ∧
    (∀ k, k ∈ b.fieldsSet → ∃ v p, alookup b.fields k = some v ∧
      mergedField (alookup a.fields k) v true = Except.ok p ∧
      alookup a2.fields k = some p.2) ∧
    (ch = true ↔ ∃ k, k ∈ b.fieldsSet ∧ ∃ v p,
      alookup b.fields k = some v ∧
      mergedField (alookup a.fields k) v true = Except.ok p ∧
      p.1 = true) := by
  simp [Record.update, ha, hb] at h
  obtain ⟨hidx, hunt, hper, hch⟩ :=
    updateLoop_spec b.fieldsSet a b.fields true false ch a2 h hnd
  refine ⟨hidx, hunt, hper, ?_⟩
  simpa using hch

/-- Witness for C3: an atom field is overwritten, a nested record is merged
recursively, the untouched field behaviour and the change report are the
instantiated conclusions. -/
theorem c3_merge_asymmetry_witness :
    (Record.mk [("x", Value.atom 1), ("n", Value.sub (Record.mk [("y", Value.atom 5)] [] (some 9)))] [] (some 4)).index = some 4 ∧
    (Record.mk [("x", Value.atom 2), ("n", Value.sub (Record.mk [("y", Value.atom 6)] ["y"] (some 9)))] ["x", "n"] (some 4)).index = some 4 ∧
    (Record.mk [("x", Value.atom 2), ("n", Value.sub (Record.mk [("y", Value.atom 6)] ["y"] (some 9)))] ["x", "n"] (some 4)).fieldsSet.Nodup ∧
    Record.update (Record.mk [("x", Value.atom 1), ("n", Value.sub (Record.mk [("y", Value.atom 5)] [] (some 9)))] [] (some 4)) (Record.mk [("x", Value.atom 2), ("n", Value.sub (Record.mk [("y", Value.atom 6)] ["y"] (some 9)))] ["x", "n"] (some 4)) true = Except.ok (true, (Record.mk [("x", Value.atom 2), ("n", Value.sub (Record.mk [("y", Value.atom 6)] ["y"] (some 9)))] ["x"] (some 4))) ∧
    ((Record.mk [("x", Value.atom 2), ("n", Value.sub (Record.mk [("y", Value.atom 6)] ["y"] (some 9)))] ["x"] (some 4)).index = (Record.mk [("x", Value.atom 1), ("n", Value.sub (Record.mk [("y", Value.atom 5)] [] (some 9)))] [] (some 4)).index ∧
      (∀ k, k ∉ (Record.mk [("x", Value.atom 2), ("n", Value.sub (Record.mk [("y", Value.atom 6)] ["y"] (some 9)))] ["x", "n"] (some 4)).fieldsSet →
        alookup (Record.mk [("x", Value.atom 2), ("n", Value.sub (Record.mk [("y", Value.atom 6)] ["y"] (some 9)))] ["x"] (some 4)).fields k = alookup (Record.mk [("x", Value.atom 1), ("n", Value.sub (Record.mk [("y", Value.atom 5)] [] (some 9)))] [] (some 4)).fields k) ∧
      (∀ k, k ∈ (Record.mk [("x", Value.atom 2), ("n", Value.sub (Record.mk [("y", Value.atom 6)] ["y"] (some 9)))] ["x", "n"] (some 4)).fieldsSet → ∃ v p,
        alookup (Record.mk [("x", Value.atom 2), ("n", Value.sub (Record.mk [("y", Value.atom 6)] ["y"] (some 9)))] ["x", "n"] (some 4)).fields k = some v ∧
        mergedField (alookup (Record.mk [("x", Value.atom 1), ("n", Value.sub (Record.mk [("y", Value.atom 5)] [] (some 9)))] [] (some 4)).fields k) v true = Except.ok p ∧
        alookup (Record.mk [("x", Value.atom 2), ("n", Value.sub (Record.mk [("y", Value.atom 6)] ["y"] (some 9)))] ["x"] (some 4)).fields k = some p.2) ∧
      (true = true ↔ ∃ k, k ∈ (Record.mk [("x", Value.atom 2), ("n", Value.sub (Record.mk [("y", Value.atom 6)] ["y"] (some 9)))] ["x", "n"] (some 4)).fieldsSet ∧ ∃ v p,
        alookup (Record.mk [("x", Value.atom 2), ("n", Value.sub (Record.mk [("y", Value.atom 6)] ["y"] (some 9)))] ["x", "n"] (some 4)).fields k = some v ∧
        mergedField (alookup (Record.mk [("x", Value.atom 1), ("n", Value.sub (Record.mk [("y", Value.atom 5)] [] (some 9)))] [] (some 4)).fields k) v true = Except.ok p ∧
        p.1 = true)) := by
  have hEval : Record.update (Record.mk [("x", Value.atom 1), ("n", Value.sub (Record.mk [("y", Value.atom 5)] [] (some 9)))] [] (some 4)) (Record.mk [("x", Value.atom 2), ("n", Value.sub (Record.mk [("y", Value.atom 6)] ["y"] (some 9)))] ["x", "n"] (some 4)) true = Except.ok (true, (Record.mk [("x", Value.atom 2), ("n", Value.sub (Record.mk [("y", Value.atom 6)] ["y"] (some 9)))] ["x"] (some 4))) := by
    simp [Record.update, Record.updateLoop, Record.index, Record.fields,
      Record.fieldsSet, lookupFS, alookup, aset, addKey]
  exact ⟨rfl, rfl, by decide, hEval,
    c3_merge_asymmetry (Record.mk [("x", Value.atom 1), ("n", Value.sub (Record.mk [("y", Value.atom 5)] [] (some 9)))] [] (some 4)) (Record.mk [("x", Value.atom 2), ("n", Value.sub (Record.mk [("y", Value.atom 6)] ["y"] (some 9)))] ["x", "n"] (some 4)) 4 true (Record.mk [("x", Value.atom 2), ("n", Value.sub (Record.mk [("y", Value.atom 6)] ["y"] (some 9)))] ["x"] (some 4)) rfl rfl (by decide) hEval⟩
